import Mathlib

/-!
Verification of the segment-planning and extraction core of the
`splitter` repository (`src/newtool.py`, `src/main.py`).

Python strings are modelled as `List Char`; Python `str.split`,
`str.strip` and `int(...)` are embedded as executable Lean functions
below.  Machine integers are modelled as `Int`/`Nat` (Python integers
are unbounded, so no wraparound is involved).
-/

set_option maxRecDepth 4000

/-- Python strings, modelled as lists of characters. -/
abbrev PyStr := List Char

/-- Python `str.strip()`: removes leading and trailing whitespace.
(Python strips a slightly different whitespace set than
`Char.isWhitespace`; the difference is immaterial here since all
stripped inputs contain only digits, colons, spaces and dashes.) -/
def pyStrip (s : PyStr) : PyStr :=
  ((s.dropWhile Char.isWhitespace).reverse.dropWhile Char.isWhitespace).reverse

/-- Numeric value of a list of decimal digit characters. -/
def digitsToNat (ds : List Char) : Nat :=
  ds.foldl (fun a c => 10 * a + (c.toNat - 48)) 0

/-- Python `int(s)` on a string: strip whitespace, optional sign, then
decimal digits; raises `ValueError` (here: `none`) otherwise.
(Underscore digit separators, an obscure Python feature, are not
modelled; no input in this program contains them.) -/
def pyInt (s : PyStr) : Option Int :=
  match pyStrip s with
  | [] => none
  | '-' :: ds =>
      if ds ≠ [] ∧ ds.all Char.isDigit then some (-(Int.ofNat (digitsToNat ds))) else none
  | '+' :: ds =>
      if ds ≠ [] ∧ ds.all Char.isDigit then some (Int.ofNat (digitsToNat ds)) else none
  | ds =>
      if ds.all Char.isDigit then some (Int.ofNat (digitsToNat ds)) else none

/-- Fueled worker for Python `str.split(sep)` with separator `c :: cs`.
The fuel argument only makes the recursion structural (the scan skips
`cs.length + 1` characters at each separator occurrence); it is always
called with enough fuel that the first equation is unreachable. -/
def pySplitF (c : Char) (cs : List Char) : Nat → List Char → List (List Char)
  | _, [] => [[]]
  | 0, s => [s]
  | fuel + 1, x :: xs =>
      if (c :: cs).isPrefixOf (x :: xs) then
        [] :: pySplitF c cs fuel (xs.drop cs.length)
      else
        match pySplitF c cs fuel xs with
        | r :: rs => (x :: r) :: rs
        | [] => [[x]]

/-- Python `s.split(sep)` for a non-empty separator `c :: cs`:
leftmost, non-overlapping occurrences; `"".split(sep) == [""]`. -/
def pySplit (c : Char) (cs : List Char) (s : List Char) : List (List Char) :=
  pySplitF c cs (s.length + 1) s

namespace VideoSplitter

/-- `VideoSplitter.time_to_seconds` (src/newtool.py:187-201): accepts
`HH:MM:SS`, `MM:SS` or `SS`; any `ValueError` from `int(...)` or any
other part count yields `None`. -/
def time_to_seconds (t : PyStr) : Option Int :=
  let parts := pySplit ':' [] t
  if parts.length = 3 then
    match pyInt (parts.getD 0 []), pyInt (parts.getD 1 []), pyInt (parts.getD 2 []) with
    | some h, some m, some s => some (h * 3600 + m * 60 + s)
    | _, _, _ => none
  else if parts.length = 2 then
    match pyInt (parts.getD 0 []), pyInt (parts.getD 1 []) with
    | some m, some s => some (m * 60 + s)
    | _, _ => none
  else if parts.length = 1 then
    pyInt (parts.getD 0 [])
  else
    none

/-- `VideoSplitter.sanitize_filename` (src/newtool.py:275-276):
`re.sub(r'[<>:"/\\|?*]', "_", name.strip())`. -/
def sanitize_filename (name : PyStr) : PyStr :=
  (pyStrip name).map (fun ch =>
    if ch = '<' ∨ ch = '>' ∨ ch = ':' ∨ ch = '"' ∨ ch = '/' ∨ ch = '\\' ∨ ch = '|' ∨
        ch = '?' ∨ ch = '*' then '_' else ch)

end VideoSplitter

namespace VideoSplitterApp

/-- `VideoSplitterApp.time_to_seconds` (src/newtool.py:770-775):
requires exactly `H:M:S` (the three-way unpacking raises `ValueError`
on any other part count). -/
def time_to_seconds (t : PyStr) : Option Int :=
  match (pySplit ':' [] t).map pyInt with
  | [some h, some m, some s] => some (h * 3600 + m * 60 + s)
  | _ => none

/-- Decimal rendering of a natural number, as Python/Qt would print it. -/
def natStr (n : Nat) : PyStr := (toString n).toList

/-- Two-digit zero padding, as Qt's `HH`/`mm`/`ss` format fields
produce for values below 100 (all fields here are < 60 or < 24). -/
def pad2 (n : Nat) : PyStr := if n < 10 then '0' :: natStr n else natStr n

/-- `VideoSplitterApp.format_time` (src/newtool.py:991-992):
`QTime(0,0,0).addMSecs(ms).toString("HH:mm:ss")`.  `QTime` is a
time-of-day type: `addMSecs` wraps modulo 24 hours (86_400_000 ms),
so `HH` is always in `[00, 23]`. -/
def format_time (ms : Nat) : PyStr :=
  let secs := ms % 86400000 / 1000
  pad2 (secs / 3600) ++ ':' :: (pad2 (secs % 3600 / 60) ++ ':' :: pad2 (secs % 60))

end VideoSplitterApp

/-- A crop region / crop parameter record `{x, y, width, height}` in
video pixel space (`crop_params` dict in src/newtool.py). -/
structure CropParams where
  x : Int
  y : Int
  width : Int
  height : Int
deriving DecidableEq, Repr

/-- A rectangle in scene coordinates, as delivered by
`sceneBoundingRect()` after `int(...)` conversion.  (The ±1 pixel
pen-width inflation of Qt's bounding rect and float truncation are not
modelled; they are immaterial to the clamping claims.) -/
structure SceneRect where
  x : Int
  y : Int
  width : Int
  height : Int
deriving DecidableEq, Repr

/-- `QSpinBox.setValue`: the stored value is clamped into the widget's
`[lo, hi]` range. -/
def spinSet (lo hi v : Int) : Int := max lo (min hi v)

namespace ResizableRect

/-- The resize branch of `ResizableRect.mouseMoveEvent`
(src/newtool.py:54-63): `new_width = max(event.pos().x() - rect.x(), 20)`,
`new_height = max(event.pos().y() - rect.y(), 20)`; position is kept. -/
def mouseMoveResize (rect : SceneRect) (posX posY : Int) : SceneRect :=
  { rect with width := max (posX - rect.x) 20, height := max (posY - rect.y) 20 }

end ResizableRect

namespace VideoSplitterApp

/-- `VideoSplitterApp.handle_crop_updated` (src/newtool.py:673-679):
stores the rectangle into the four spin boxes, whose ranges are
`x, y ∈ [0, 9999]` and `width, height ∈ [1, 9999]`
(src/newtool.py:486-504).  `start_cutting` later reads the crop
parameters back from these spin boxes.  No clamping against the video
bounds happens anywhere on this path. -/
def handle_crop_updated (rect : SceneRect) : CropParams :=
  { x := spinSet 0 9999 rect.x
    y := spinSet 0 9999 rect.y
    width := spinSet 1 9999 rect.width
    height := spinSet 1 9999 rect.height }

/-- Errors shown by `show_error` during crop validation. -/
inductive CropError where
  | widthExceeded
  | heightExceeded
  | nonPositiveSize
deriving DecidableEq, Repr

/-- `VideoSplitterApp.validate_crop_params` (src/newtool.py:851-873).
`capture` is the `cv2.VideoCapture` probe: when the file opens, the
local `width`/`height` variables are REBOUND to the probed frame size,
shadowing the crop's width/height (a faithful rendering of the source).
The out-of-bounds checks only show an error dialog — their
`return False` lines are commented out in the source (lines 863, 867) —
so the function returns `False` only from the `width < 1 or height < 1`
check.  Returns the decision together with the list of errors shown. -/
def validate_crop_params (p : CropParams) (capture : Option (Int × Int))
    (videoWidth videoHeight : Int) : Bool × List CropError :=
  let x := p.x
  let y := p.y
  let wh := capture.getD (p.width, p.height)
  let width := wh.1
  let height := wh.2
  let errs :=
    (if x + width > videoWidth then [CropError.widthExceeded] else []) ++
    (if y + height > videoHeight then [CropError.heightExceeded] else [])
  if width < 1 ∨ height < 1 then (false, errs ++ [CropError.nonPositiveSize])
  else (true, errs)

/-- The decision structure of `VideoSplitterApp.start_cutting`
(src/newtool.py:814-849): returns `true` iff the `VideoSplitter`
worker thread is started (the job list is handed to the extraction
engine).  `inputsValid` is the result of `validate_inputs`;
`crop = some p` models `self.crop_rect` being set with `p` read from
the spin boxes.  (Output-directory creation, which can only abort with
an OS error, is modelled as succeeding.) -/
def start_cutting_launches (inputsValid : Bool) (crop : Option CropParams)
    (capture : Option (Int × Int)) (videoWidth videoHeight : Int) : Bool :=
  if inputsValid = false then false
  else
    match crop with
    | none => true
    | some p => (validate_crop_params p capture videoWidth videoHeight).1

end VideoSplitterApp

namespace VideoSplitterApp

/-- The regex `^\d{2}:\d{2}:\d{2}$` (src/newtool.py:748) as a shape
check.  (The `$`-matches-before-trailing-newline corner of Python
regexes cannot arise: both inputs are stripped first.) -/
def timePatternOk (t : PyStr) : Bool :=
  match t with
  | [d1, d2, c1, d3, d4, c2, d5, d6] =>
      d1.isDigit && d2.isDigit && (c1 == ':') && d3.isDigit && d4.isDigit &&
        (c2 == ':') && d5.isDigit && d6.isDigit
  | _ => false

/-- Sort key used by `add_cut_point`'s re-sort (src/newtool.py:759):
`self.time_to_seconds(x.split(" - ")[0])`.  For every stored entry the
key is a parsed time (a `None` key would raise `TypeError` in Python's
sort, which cannot happen for entries admitted by the pattern check). -/
def startKey (cp : PyStr) : Int :=
  (time_to_seconds ((pySplit ' ' ("- ".toList) cp).getD 0 [])).getD 0

/-- Stable insertion into a sorted list: `x` is placed before every
element of equal key, matching the relative-order guarantee of
Python's stable `list.sort(key=...)`. -/
def insertByKey (key : PyStr → Int) (x : PyStr) : List PyStr → List PyStr
  | [] => [x]
  | y :: ys => if key y < key x then y :: insertByKey key x ys else x :: y :: ys

/-- Stable sort by key; observably identical to Python's stable
`list.sort(key=...)`. -/
def sortByKey (key : PyStr → Int) : List PyStr → List PyStr
  | [] => []
  | x :: xs => insertByKey key x (sortByKey key xs)

/-- Outcome of the add-cut-point dialog's `validate_and_add`. -/
inductive AddOutcome where
  | formatRejected
  | duplicateRejected
  | added
deriving DecidableEq, Repr

/-- `validate_and_add` (src/newtool.py:744-763): both fields are
stripped; both must match `^\d{2}:\d{2}:\d{2}$`; the combined
`"start - end"` string must not already be stored; on success it is
appended and the store re-sorted by parsed start time.  NOTE: there is
no `end <= start` check here — that is only performed later, in
`validate_inputs`, when the user presses start. -/
def validate_and_add (store : List PyStr) (startInput endInput : PyStr) :
    AddOutcome × List PyStr :=
  let startTime := pyStrip startInput
  let endTime := pyStrip endInput
  if ¬ (timePatternOk startTime ∧ timePatternOk endTime) then
    (AddOutcome.formatRejected, store)
  else
    let cutPoint := startTime ++ " - ".toList ++ endTime
    if cutPoint ∈ store then (AddOutcome.duplicateRejected, store)
    else (AddOutcome.added, sortByKey startKey (store ++ [cutPoint]))

/-- `VideoSplitterApp.validate_inputs` (src/newtool.py:875-913),
restricted to its data arguments: a video must be loaded, at least one
cut point must exist, the name count must match, all names must be
non-empty after stripping, and every cut point must split into exactly
two `H:M:S` times with `end > start`. -/
def validate_inputs (hasVideo : Bool) (cutPoints names : List PyStr) : Bool :=
  if hasVideo = false then false
  else if cutPoints.length < 1 then false
  else if names.length ≠ cutPoints.length then false
  else if ¬ names.all (fun n => pyStrip n ≠ []) then false
  else
    cutPoints.all (fun cp =>
      match pySplit ' ' ("- ".toList) cp with
      | [startTime, endTime] =>
          match time_to_seconds startTime, time_to_seconds endTime with
          | some startSeconds, some endSeconds => endSeconds > startSeconds
          | _, _ => false
      | _ => false)

end VideoSplitterApp

/-- Bit length of a natural number; the first argument is fuel that
only makes the halving recursion structural (`bitlenF n n` always has
enough fuel, since `n` is at least its own bit length). -/
def bitlenF : Nat → Nat → Nat
  | _, 0 => 0
  | 0, _ => 0
  | fuel + 1, n + 1 => bitlenF fuel ((n + 1) / 2) + 1

/-- Number of binary digits of `n` (0 for 0). -/
def bitlen (n : Nat) : Nat := bitlenF n n

/-- Round `a / b` (with `b > 0`) to the nearest integer, ties to even. -/
def rnne (a b : Nat) : Nat :=
  let q := a / b
  let r := a % b
  if 2 * r < b then q
  else if 2 * r > b then q + 1
  else if q % 2 = 0 then q else q + 1

/-- Does `a / b ≥ 2 ^ e` hold (`b > 0`)?  Decided exactly in integers. -/
def qGeTwoPow (a b : Nat) (e : Int) : Bool :=
  if 0 ≤ e then decide (b * 2 ^ e.toNat ≤ a) else decide (b ≤ a * 2 ^ (-e).toNat)

/-- The IEEE-754 binary64 (Python `float`) value nearest to `a / b`
(`b > 0`), rounding ties to even, returned as `(n, s)` with value
`n * 2 ^ (-s)`: the quotient is scaled so that rounding happens at the
53-bit-significand grid of its binade, and below `2 ^ (-1022)` on the
subnormal grid `2 ^ (-1074)`.  The overflow-to-infinity threshold at
`2 ^ 1024` is not modelled — no value reachable from the progress
computation (a ratio in `(0, 1]` scaled by 100) comes near it. -/
def roundF64 (a b : Nat) : Nat × Int :=
  if a = 0 then (0, 0)
  else
    let e : Int := (bitlen a : Int) - (bitlen b : Int)
    let p : Int := if qGeTwoPow a b e then e else e - 1
    let q : Int := max p (-1022)
    let s : Int := 52 - q
    let n := if 0 ≤ s then rnne (a * 2 ^ s.toNat) b else rnne a (b * 2 ^ (-s).toNat)
    (n, s)

/-- `int((i + 1) / total_segments * 100)` (src/newtool.py:267) with
Python float semantics: `int / int` is the correctly rounded binary64
quotient of the exact ratio (CPython's long_true_divide), `float * int`
is the correctly rounded binary64 product with the exactly converted
100, and `int(...)` truncates toward zero.  This can differ from the
exact rational floor: it yields 57 at `i = 28, total = 50` where
`29 * 100 / 50 = 58`.  (`total = 0` never reaches this expression in
the source: the loop body does not run on an empty list.) -/
def pyProgress (i totalSegments : Nat) : Nat :=
  let r1 := roundF64 (i + 1) totalSegments
  let r2 :=
    if 0 ≤ r1.2 then roundF64 (r1.1 * 100) (2 ^ r1.2.toNat)
    else roundF64 (r1.1 * 100 * 2 ^ (-r1.2).toNat) 1
  if 0 ≤ r2.2 then r2.1 / 2 ^ r2.2.toNat else r2.1 * 2 ^ (-r2.2).toNat


namespace VideoSplitter

/-- Decimal rendering of a Python integer (`str(duration)` etc.). -/
def intStr (i : Int) : PyStr := (toString i).toList

/-- The crop filter string (src/newtool.py:243):
`f"crop={width}:{height}:{x}:{y}"`. -/
def cropFilter (p : CropParams) : PyStr :=
  "crop=".toList ++ intStr p.width ++ ':' :: intStr p.height ++ ':' :: intStr p.x ++
    ':' :: intStr p.y

/-- The external command line built by `VideoSplitter.run`
(src/newtool.py:231-244).  The base list ends with the output file;
when crop parameters are present, `command.extend(["-vf", crop_filter])`
appends the filter AFTER the output file. -/
def buildCommand (videoPath startTime : PyStr) (duration : Int) (outputFile : PyStr)
    (crop : Option CropParams) : List PyStr :=
  let command :=
    ["ffmpeg".toList, "-ss".toList, startTime, "-i".toList, videoPath, "-t".toList,
      intStr duration, "-c:v".toList, "libx264".toList, "-c:a".toList, "aac".toList,
      "-y".toList, outputFile]
  match crop with
  | none => command
  | some p => command ++ ["-vf".toList, cropFilter p]

/-- Progress token extraction (src/newtool.py:254-257): for a line
containing `"time="`, `line.split("time=")[1].split(" ")[0]`. -/
def timeTokenOf (line : PyStr) : Option PyStr :=
  match pySplit 't' ("ime=".toList) line with
  | _ :: second :: _ => some ((pySplit ' ' [] second).getD 0 [])
  | _ => none

/-- Status messages emitted through `status_updated` during a run;
each constructor corresponds to one emit site in src/newtool.py. -/
inductive Status where
  | createdOutputDir (folder : PyStr)            -- line 209
  | timeFormatError (name : PyStr)               -- line 218
  | invalidDuration (name : PyStr)               -- line 223
  | cutting (jobNumber total : Nat) (safeName : PyStr)  -- line 229
  | timeToken (safeName token : PyStr)           -- line 257
  | exportSucceeded (safeName : PyStr)           -- line 263
  | cutFailed (safeName : PyStr)                 -- line 265
  | unexpectedError                              -- line 271 (caught exception)
deriving DecidableEq, Repr

/-- Observable events of one engine run: status lines, the launch of an
external process (`subprocess.Popen`), progress updates, and the single
terminal `finished_processing` signal. -/
inductive Event where
  | status (s : Status)
  | launched (command : List PyStr)
  | progress (percent : Nat)
  | finished (succeeded : Nat) (folder : PyStr)
deriving DecidableEq, Repr

/-- Outcome of one external invocation: either `Popen` raises (missing
binary, OS error), or the process runs, produces output lines, and
exits with a code. -/
inductive ProcOutcome where
  | spawnFail
  | exit (lines : List PyStr) (code : Int)

/-- Per-run context of the `VideoSplitter` worker (its constructor
arguments plus the external-process oracle).  `outcomes i` is the
behavior of the external tool for the `i`-th job that launches;
`outputDirExisted` selects whether the initial `os.makedirs` branch
runs (its failure would be an uncaught exception; directory creation
is modelled as succeeding, matching `start_cutting` having already
created it). -/
structure RunCtx where
  videoPath : PyStr
  moments : List PyStr
  outputFolder : PyStr
  cropParams : Option CropParams
  outcomes : Nat → ProcOutcome
  outputDirExisted : Bool

/-- One iteration of the job loop of `VideoSplitter.run`
(src/newtool.py:211-271), for job index `i` with `totalSegments` jobs:
returns the events it emits and whether `success_count` is
incremented.  Every failure path is inside the `try`, so the loop
always continues; the trailing `except Exception` emits a generic
error status.  The progress value is `pyProgress i totalSegments`, the
exact binary64 model of `int((i + 1) / total_segments * 100)`. -/
def runJob (ctx : RunCtx) (totalSegments i : Nat) (cutPoint : PyStr) :
    List Event × Bool :=
  match pySplit ' ' ("- ".toList) cutPoint with
  | [startTime, endTime] =>
      match time_to_seconds startTime, time_to_seconds endTime with
      | some startSeconds, some endSeconds =>
          let duration := endSeconds - startSeconds
          if duration ≤ 0 then
            match ctx.moments.get? i with
            | none => ([Event.status Status.unexpectedError], false)
            | some name => ([Event.status (Status.invalidDuration name)], false)
          else
            match ctx.moments.get? i with
            | none => ([Event.status Status.unexpectedError], false)
            | some name =>
              let safeName := sanitize_filename name
              let outputFile := ctx.outputFolder ++ '/' :: safeName ++ ".mp4".toList
              let command :=
                buildCommand ctx.videoPath startTime duration outputFile ctx.cropParams
              let cutEv := Event.status (Status.cutting (i + 1) totalSegments safeName)
              match ctx.outcomes i with
              | ProcOutcome.spawnFail =>
                  ([cutEv, Event.status Status.unexpectedError], false)
              | ProcOutcome.exit lines code =>
                  let tokenEvs := lines.filterMap (fun line =>
                    (timeTokenOf line).map (fun tok =>
                      Event.status (Status.timeToken safeName tok)))
                  let outcomeEv :=
                    if code = 0 then Event.status (Status.exportSucceeded safeName)
                    else Event.status (Status.cutFailed safeName)
                  let progressEv := Event.progress (pyProgress i totalSegments)
                  (cutEv :: Event.launched command :: (tokenEvs ++ [outcomeEv, progressEv]),
                    code = 0)
      | _, _ =>
          match ctx.moments.get? i with
          | none => ([Event.status Status.unexpectedError], false)
          | some name => ([Event.status (Status.timeFormatError name)], false)
  | _ => ([Event.status Status.unexpectedError], false)

/-- The job loop from index `i` over the remaining cut points:
concatenated events and the number of successes. -/
def runJobs (ctx : RunCtx) (totalSegments : Nat) : Nat → List PyStr → List Event × Nat
  | _, [] => ([], 0)
  | i, cutPoint :: rest =>
      let step := runJob ctx totalSegments i cutPoint
      let tail := runJobs ctx totalSegments (i + 1) rest
      (step.1 ++ tail.1, (if step.2 then 1 else 0) + tail.2)

/-- `VideoSplitter.run` (src/newtool.py:203-273): optional
directory-creation status, the job loop over all cut points, then the
single `finished_processing(success_count, output_folder)` signal. -/
def run (ctx : RunCtx) (cutPoints : List PyStr) : List Event :=
  let totalSegments := cutPoints.length
  let dirEvents :=
    if ctx.outputDirExisted then []
    else [Event.status (Status.createdOutputDir ctx.outputFolder)]
  let loop := runJobs ctx totalSegments 0 cutPoints
  dirEvents ++ loop.1 ++ [Event.finished loop.2 ctx.outputFolder]

/-- Did the external process exit with code zero? -/
def exitedZero : ProcOutcome → Bool
  | ProcOutcome.exit _ 0 => true
  | _ => false

/-- Is an event the terminal `finished_processing` signal? -/
def isFinished : Event → Bool
  | Event.finished _ _ => true
  | _ => false

end VideoSplitter

lemma pySplitF_fuel (c : Char) (cs : List Char) :
    ∀ (n : Nat) (s : List Char), s.length ≤ n → ∀ f1 f2 : Nat,
      s.length < f1 → s.length < f2 → pySplitF c cs f1 s = pySplitF c cs f2 s := by
  intro n
  induction n with
  | zero =>
      intro s hs f1 f2 _ _
      have : s = [] := List.length_eq_zero.mp (Nat.le_zero.mp hs)
      subst this
      cases f1 <;> cases f2 <;> rfl
  | succ n ih =>
      intro s hs f1 f2 h1 h2
      match s with
      | [] => cases f1 <;> cases f2 <;> rfl
      | x :: xs =>
          obtain ⟨g1, rfl⟩ : ∃ g, f1 = g + 1 := ⟨f1 - 1, by omega⟩
          obtain ⟨g2, rfl⟩ : ∃ g, f2 = g + 1 := ⟨f2 - 1, by omega⟩
          simp only [List.length_cons] at h1 h2 hs
          simp only [pySplitF]
          by_cases hp : (c :: cs).isPrefixOf (x :: xs) = true
          · rw [if_pos hp, if_pos hp]
            have hd : (xs.drop cs.length).length ≤ n := by
              have := List.length_drop cs.length xs
              omega
            rw [ih (xs.drop cs.length) hd g1 g2 (by have := List.length_drop cs.length xs; omega)
              (by have := List.length_drop cs.length xs; omega)]
          · rw [if_neg hp, if_neg hp]
            rw [ih xs (by omega) g1 g2 (by omega) (by omega)]

lemma isPrefixOf_append_self (l t : List Char) : l.isPrefixOf (l ++ t) = true := by
  induction l with
  | nil => simp [List.isPrefixOf]
  | cons x xs ih => simp [List.isPrefixOf, ih]

lemma isPrefixOf_cons_ne {c x : Char} (cs xs : List Char) (h : x ≠ c) :
    (c :: cs).isPrefixOf (x :: xs) = false := by
  simp [List.isPrefixOf]
  intro hc
  exact absurd hc.symm h

/-- Splitting a string that does not contain the separator's first
character yields the singleton list. -/
lemma pySplit_no_sep {c : Char} {cs a : List Char} (h : c ∉ a) :
    pySplit c cs a = [a] := by
  induction a with
  | nil => rfl
  | cons x xs ih =>
      have hx : x ≠ c := fun hh => h (hh ▸ List.mem_cons_self x xs)
      have hxs : c ∉ xs := fun hm => h (List.mem_cons_of_mem x hm)
      have hp : ¬ ((c :: cs).isPrefixOf (x :: xs) = true) := by
        simp [isPrefixOf_cons_ne cs xs hx]
      show pySplitF c cs (xs.length + 1 + 1) (x :: xs) = [x :: xs]
      simp only [pySplitF]
      rw [if_neg hp]
      have : pySplitF c cs (xs.length + 1) xs = [xs] := ih hxs
      rw [this]

/-- Splitting `a ++ sep ++ b` where `a` does not contain the
separator's first character: the first piece is `a`. -/
lemma pySplit_append {c : Char} {cs : List Char} {a b : List Char} (h : c ∉ a) :
    pySplit c cs (a ++ (c :: cs) ++ b) = a :: pySplit c cs b := by
  induction a with
  | nil =>
      show pySplitF c cs (((c :: cs) ++ b).length + 1) ((c :: cs) ++ b) = [] :: pySplit c cs b
      simp only [List.cons_append, List.length_cons, List.length_append, pySplitF,
        isPrefixOf_append_self]
      have hdrop : (cs ++ b).drop cs.length = b := List.drop_left cs b
      rw [if_pos (by simpa [List.isPrefixOf, List.cons_append] using
        isPrefixOf_append_self (c :: cs) b)]
      simp only [List.append_eq]
      rw [hdrop]
      congr 1
      exact pySplitF_fuel c cs b.length b le_rfl _ _ (by omega) (by omega)
  | cons x xs ih =>
      have hx : x ≠ c := fun hh => h (hh ▸ List.mem_cons_self x xs)
      have hxs : c ∉ xs := fun hm => h (List.mem_cons_of_mem x hm)
      have hp : ¬ ((c :: cs).isPrefixOf (x :: (xs ++ (c :: cs) ++ b)) = true) := by
        simp [isPrefixOf_cons_ne _ _ hx]
      show pySplitF c cs ((x :: (xs ++ (c :: cs) ++ b)).length + 1)
          (x :: (xs ++ (c :: cs) ++ b)) = (x :: xs) :: pySplit c cs b
      simp only [pySplitF, List.length_cons]
      rw [if_neg hp]
      have : pySplitF c cs ((xs ++ (c :: cs) ++ b).length + 1) (xs ++ (c :: cs) ++ b) =
          xs :: pySplit c cs b := ih hxs
      rw [this]

example : VideoSplitter.time_to_seconds ("1:2:3".toList) = some 3723 := by decide
example : VideoSplitter.time_to_seconds ("99:99".toList) = some 6039 := by decide
example : VideoSplitter.time_to_seconds ("-5".toList) = some (-5) := by decide
example : VideoSplitter.time_to_seconds ("a".toList) = none := by decide
example : VideoSplitter.time_to_seconds ("1:2:3:4".toList) = none := by decide
example : VideoSplitter.time_to_seconds ("".toList) = none := by decide
example : VideoSplitterApp.time_to_seconds ("00:05:00".toList) = some 300 := by decide
example : VideoSplitterApp.time_to_seconds ("99:99".toList) = none := by decide
example : VideoSplitterApp.format_time 3723456 = "01:02:03".toList := by decide
example : VideoSplitterApp.format_time 86400000 = "00:00:00".toList := by decide
example : VideoSplitter.sanitize_filename ("  a/b*c?  ".toList) = "a_b_c_".toList := by decide

example :
    VideoSplitterApp.validate_crop_params ⟨1900, 0, 100, 100⟩ (some (1920, 1080)) 1920 1080 =
      (true, [VideoSplitterApp.CropError.widthExceeded]) := by decide
example :
    VideoSplitterApp.handle_crop_updated ⟨5000, 0, 5000, 100⟩ = ⟨5000, 0, 5000, 100⟩ := by
  decide

example :
    VideoSplitterApp.validate_and_add [] ("00:10:00".toList) ("00:05:00".toList) =
      (VideoSplitterApp.AddOutcome.added, ["00:10:00 - 00:05:00".toList]) := by decide
example :
    VideoSplitterApp.validate_and_add ["00:10:00 - 00:05:00".toList]
      ("00:10:00".toList) ("00:05:00".toList) =
      (VideoSplitterApp.AddOutcome.duplicateRejected, ["00:10:00 - 00:05:00".toList]) := by
  decide
example :
    VideoSplitterApp.validate_inputs true ["00:10:00 - 00:05:00".toList] ["a".toList] =
      false := by decide
example :
    VideoSplitterApp.validate_inputs true ["00:05:00 - 00:10:00".toList] ["a".toList] =
      true := by decide

example :
    VideoSplitter.run
      { videoPath := "v.mp4".toList
        moments := ["a".toList, "b".toList, "c".toList]
        outputFolder := "out".toList
        cropParams := none
        outcomes := fun _ => VideoSplitter.ProcOutcome.exit [] 0
        outputDirExisted := true }
      ["00:00:00 - 00:00:01".toList, "00:00:01 - 00:00:02".toList,
        "00:00:02 - 00:00:03".toList] =
    [VideoSplitter.Event.status (VideoSplitter.Status.cutting 1 3 ("a".toList)),
     VideoSplitter.Event.launched (VideoSplitter.buildCommand ("v.mp4".toList)
       ("00:00:00".toList) 1 ("out/a.mp4".toList) none),
     VideoSplitter.Event.status (VideoSplitter.Status.exportSucceeded ("a".toList)),
     VideoSplitter.Event.progress 33,
     VideoSplitter.Event.status (VideoSplitter.Status.cutting 2 3 ("b".toList)),
     VideoSplitter.Event.launched (VideoSplitter.buildCommand ("v.mp4".toList)
       ("00:00:01".toList) 1 ("out/b.mp4".toList) none),
     VideoSplitter.Event.status (VideoSplitter.Status.exportSucceeded ("b".toList)),
     VideoSplitter.Event.progress 66,
     VideoSplitter.Event.status (VideoSplitter.Status.cutting 3 3 ("c".toList)),
     VideoSplitter.Event.launched (VideoSplitter.buildCommand ("v.mp4".toList)
       ("00:00:02".toList) 1 ("out/c.mp4".toList) none),
     VideoSplitter.Event.status (VideoSplitter.Status.exportSucceeded ("c".toList)),
     VideoSplitter.Event.progress 100,
     VideoSplitter.Event.finished 3 ("out".toList)] := by decide

namespace VideoSplitter

lemma runJob_progress (ctx : RunCtx) (totalSegments i : Nat) (cutPoint : PyStr) (p : Nat)
    (h : Event.progress p ∈ (runJob ctx totalSegments i cutPoint).1) :
    p = pyProgress i totalSegments := by
  unfold runJob at h
  repeat' split at h <;>
    try simp_all [List.mem_filterMap, Option.map_eq_some']

/-- The double-precision progress value diverges from the exact
rational floor: Python emits 57 at job index 28 of 50 and 28 at job
index 28 of 100, where the exact floors are 58 and 29.  It agrees with
CPython's `int((i + 1) / total * 100)` on these and on the inputs of
the concrete runs below. -/
lemma pyProgress_ne_exact_floor :
    pyProgress 28 50 = 57 ∧ (28 + 1) * 100 / 50 = 58 ∧
    pyProgress 28 100 = 28 ∧ (28 + 1) * 100 / 100 = 29 := by decide

lemma runJob_no_finished (ctx : RunCtx) (totalSegments i : Nat) (cutPoint : PyStr)
    (n : Nat) (folder : PyStr) :
    Event.finished n folder ∉ (runJob ctx totalSegments i cutPoint).1 := by
  intro h
  unfold runJob at h
  repeat' split at h <;>
    try simp_all [List.mem_filterMap, Option.map_eq_some']

lemma runJob_success_iff (ctx : RunCtx) (totalSegments i : Nat) (cutPoint : PyStr) :
    (runJob ctx totalSegments i cutPoint).2 = true ↔
      ((∃ command, Event.launched command ∈ (runJob ctx totalSegments i cutPoint).1) ∧
        exitedZero (ctx.outcomes i) = true) := by
  unfold runJob
  repeat' split <;>
    try simp_all [List.mem_filterMap, Option.map_eq_some', exitedZero]

lemma runJobs_progress (ctx : RunCtx) (totalSegments : Nat) :
    ∀ (cutPoints : List PyStr) (i p : Nat),
      Event.progress p ∈ (runJobs ctx totalSegments i cutPoints).1 →
      ∃ j, i ≤ j ∧ j < i + cutPoints.length ∧ p = pyProgress j totalSegments := by
  intro cutPoints
  induction cutPoints with
  | nil => intro i p h; simp [runJobs] at h
  | cons cp rest ih =>
      intro i p h
      simp only [runJobs, List.mem_append] at h
      rcases h with h | h
      · exact ⟨i, le_rfl, by simp, runJob_progress ctx totalSegments i cp p h⟩
      · obtain ⟨j, hj1, hj2, hj3⟩ := ih (i + 1) p h
        exact ⟨j, by omega, by simp only [List.length_cons]; omega, hj3⟩

lemma runJobs_no_finished (ctx : RunCtx) (totalSegments : Nat) :
    ∀ (cutPoints : List PyStr) (i n : Nat) (folder : PyStr),
      Event.finished n folder ∉ (runJobs ctx totalSegments i cutPoints).1 := by
  intro cutPoints
  induction cutPoints with
  | nil => intro i n folder h; simp [runJobs] at h
  | cons cp rest ih =>
      intro i n folder h
      simp only [runJobs, List.mem_append] at h
      rcases h with h | h
      · exact runJob_no_finished ctx totalSegments i cp n folder h
      · exact ih (i + 1) n folder h

lemma runJobs_succ_le (ctx : RunCtx) (totalSegments : Nat) :
    ∀ (cutPoints : List PyStr) (i : Nat),
      (runJobs ctx totalSegments i cutPoints).2 ≤ cutPoints.length := by
  intro cutPoints
  induction cutPoints with
  | nil => intro i; simp [runJobs]
  | cons cp rest ih =>
      intro i
      simp only [runJobs, List.length_cons]
      have := ih (i + 1)
      split <;> omega

lemma runJobs_succ_eq_countP (ctx : RunCtx) (totalSegments : Nat) :
    ∀ (cutPoints : List PyStr) (i : Nat),
      (runJobs ctx totalSegments i cutPoints).2 =
        (List.range cutPoints.length).countP
          (fun j => (runJob ctx totalSegments (i + j) (cutPoints.getD j [])).2) := by
  intro cutPoints
  induction cutPoints with
  | nil => intro i; simp [runJobs]
  | cons cp rest ih =>
      intro i
      simp only [runJobs, List.length_cons, List.range_succ_eq_map, List.countP_cons,
        List.countP_map, List.getD_cons_zero, Nat.add_zero]
      have hcomp : (List.range rest.length).countP
          ((fun j => (runJob ctx totalSegments (i + j) ((cp :: rest).getD j [])).2) ∘ Nat.succ) =
          (runJobs ctx totalSegments (i + 1) rest).2 := by
        rw [ih (i + 1)]
        apply List.countP_congr
        intro j _
        have hidx : i + Nat.succ j = i + 1 + j := by omega
        simp only [Function.comp_apply, List.getD_cons_succ, hidx]
      rw [hcomp]
      exact Nat.add_comm _ _

lemma run_getLast (ctx : RunCtx) (cutPoints : List PyStr) :
    (run ctx cutPoints).getLast? =
      some (Event.finished (runJobs ctx cutPoints.length 0 cutPoints).2 ctx.outputFolder) := by
  unfold run
  simp [List.getLast?_append]

lemma run_one_finished (ctx : RunCtx) (cutPoints : List PyStr) :
    (run ctx cutPoints).countP (fun e => isFinished e) = 1 := by
  unfold run
  simp only [List.countP_append]
  have h1 : (if ctx.outputDirExisted then ([] : List Event)
      else [Event.status (Status.createdOutputDir ctx.outputFolder)]).countP
        (fun e => isFinished e) = 0 := by
    split <;> simp [isFinished]
  have h2 : (runJobs ctx cutPoints.length 0 cutPoints).1.countP (fun e => isFinished e) = 0 := by
    rw [List.countP_eq_zero]
    intro e he
    rcases e with s | cmd | p | ⟨n, f⟩
    · simp [isFinished]
    · simp [isFinished]
    · simp [isFinished]
    · exact absurd he (runJobs_no_finished ctx cutPoints.length cutPoints 0 n f)
  rw [h1, h2]
  simp [isFinished]

lemma runJobs_append (ctx : RunCtx) (totalSegments : Nat) :
    ∀ (l1 l2 : List PyStr) (i : Nat),
      runJobs ctx totalSegments i (l1 ++ l2) =
        ((runJobs ctx totalSegments i l1).1 ++
            (runJobs ctx totalSegments (i + l1.length) l2).1,
          (runJobs ctx totalSegments i l1).2 +
            (runJobs ctx totalSegments (i + l1.length) l2).2) := by
  intro l1
  induction l1 with
  | nil => intro l2 i; simp [runJobs]
  | cons cp rest ih =>
      intro l2 i
      simp only [List.cons_append, runJobs, List.append_eq]
      rw [ih l2 (i + 1)]
      simp only [List.length_cons]
      have h1 : i + 1 + rest.length = i + (rest.length + 1) := by omega
      rw [h1]
      refine Prod.ext ?_ ?_
      · simp
      · simp only []
        omega

end VideoSplitter

namespace VideoSplitterApp

lemma colon_not_mem_pad2 : ∀ n, n < 100 → ':' ∉ pad2 n := by decide

lemma pyInt_pad2 : ∀ n, n < 100 → pyInt (pad2 n) = some (Int.ofNat n) := by decide

/-- Round trip below the 24-hour wrap: parsing the formatted time
recovers the whole-second count. -/
lemma time_to_seconds_format_time (ms : Nat) (h : ms < 86400000) :
    time_to_seconds (format_time ms) = some (Int.ofNat (ms / 1000)) := by
  have hms : ms % 86400000 = ms := Nat.mod_eq_of_lt h
  have hsecs : ms % 86400000 / 1000 = ms / 1000 := by rw [hms]
  have hb : ms / 1000 < 86400 := by omega
  simp only [format_time, hsecs]
  set secs := ms / 1000 with hdef
  have hh : secs / 3600 < 100 := by omega
  have hm : secs % 3600 / 60 < 100 := by omega
  have hs3 : secs % 60 < 100 := by omega
  have split3 : pySplit ':' []
      (pad2 (secs / 3600) ++ ':' :: (pad2 (secs % 3600 / 60) ++ ':' :: pad2 (secs % 60))) =
      [pad2 (secs / 3600), pad2 (secs % 3600 / 60), pad2 (secs % 60)] := by
    have e1 : pad2 (secs / 3600) ++ ':' :: (pad2 (secs % 3600 / 60) ++ ':' :: pad2 (secs % 60)) =
        pad2 (secs / 3600) ++ (':' :: ([] : List Char)) ++
          (pad2 (secs % 3600 / 60) ++ ':' :: pad2 (secs % 60)) := by simp
    rw [e1, pySplit_append (colon_not_mem_pad2 (secs / 3600) hh)]
    have e2 : pad2 (secs % 3600 / 60) ++ ':' :: pad2 (secs % 60) =
        pad2 (secs % 3600 / 60) ++ (':' :: ([] : List Char)) ++ pad2 (secs % 60) := by simp
    rw [e2, pySplit_append (colon_not_mem_pad2 (secs % 3600 / 60) hm),
      pySplit_no_sep (colon_not_mem_pad2 (secs % 60) hs3)]
  simp only [time_to_seconds, split3, List.map_cons, List.map_nil,
    pyInt_pad2 (secs / 3600) hh, pyInt_pad2 (secs % 3600 / 60) hm,
    pyInt_pad2 (secs % 60) hs3]
  have harith : secs / 3600 * 3600 + secs % 3600 / 60 * 60 + secs % 60 = secs := by omega
  congr 1
  exact_mod_cast congrArg (Int.ofNat) harith

/-- A string matching `^\d{2}:\d{2}:\d{2}$` contains no space. -/
lemma timePatternOk_no_space {t : PyStr} (h : timePatternOk t = true) : ' ' ∉ t := by
  intro hmem
  unfold timePatternOk at h
  split at h
  · next d1 d2 c1 d3 d4 c2 d5 d6 =>
      simp only [Bool.and_eq_true, beq_iff_eq] at h
      obtain ⟨⟨⟨⟨⟨⟨⟨h1, h2⟩, h3⟩, h4⟩, h5⟩, h6⟩, h7⟩, h8⟩ := h
      simp only [List.mem_cons, List.not_mem_nil, or_false] at hmem
      rcases hmem with rfl | rfl | rfl | rfl | rfl | rfl | rfl | rfl <;> simp_all
  · exact absurd h (by simp)

end VideoSplitterApp

namespace VideoSplitter

lemma time_to_seconds_three {t a b c : PyStr} {ha hb hc : Int}
    (h : pySplit ':' [] t = [a, b, c]) (hA : pyInt a = some ha) (hB : pyInt b = some hb)
    (hC : pyInt c = some hc) :
    time_to_seconds t = some (ha * 3600 + hb * 60 + hc) := by
  unfold time_to_seconds
  simp [h, hA, hB, hC]

lemma time_to_seconds_two {t a b : PyStr} {ha hb : Int}
    (h : pySplit ':' [] t = [a, b]) (hA : pyInt a = some ha) (hB : pyInt b = some hb) :
    time_to_seconds t = some (ha * 60 + hb) := by
  unfold time_to_seconds
  simp [h, hA, hB]

lemma time_to_seconds_one {t a : PyStr} {ha : Int}
    (h : pySplit ':' [] t = [a]) (hA : pyInt a = some ha) :
    time_to_seconds t = some ha := by
  unfold time_to_seconds
  simp [h, hA]

lemma time_to_seconds_isSome_iff (t : PyStr) :
    (time_to_seconds t).isSome = true ↔
      (((pySplit ':' [] t).length = 1 ∨ (pySplit ':' [] t).length = 2 ∨
          (pySplit ':' [] t).length = 3) ∧
        ∀ p ∈ pySplit ':' [] t, (pyInt p).isSome = true) := by
  unfold time_to_seconds
  rcases hp : pySplit ':' [] t with _ | ⟨a, _ | ⟨b, _ | ⟨c, _ | ⟨d, rest⟩⟩⟩⟩
  · simp
  · constructor
    · intro h
      rcases hA : pyInt a with _ | va
      · simp [hA] at h
      · simp [hA]
    · intro ⟨_, h⟩
      have := h a (by simp)
      rcases hA : pyInt a with _ | va
      · simp [hA] at this
      · simp [hA]
  · constructor
    · intro h
      rcases hA : pyInt a with _ | va <;> rcases hB : pyInt b with _ | vb <;>
        simp_all
    · intro ⟨_, h⟩
      have h1 := h a (by simp)
      have h2 := h b (by simp)
      rcases hA : pyInt a with _ | va <;> rcases hB : pyInt b with _ | vb <;>
        simp_all
  · constructor
    · intro h
      rcases hA : pyInt a with _ | va <;> rcases hB : pyInt b with _ | vb <;>
        rcases hC : pyInt c with _ | vc <;> simp_all
    · intro ⟨_, h⟩
      have h1 := h a (by simp)
      have h2 := h b (by simp)
      have h3 := h c (by simp)
      rcases hA : pyInt a with _ | va <;> rcases hB : pyInt b with _ | vb <;>
        rcases hC : pyInt c with _ | vc <;> simp_all
  · simp

end VideoSplitter

namespace VideoSplitterApp

lemma mem_insertByKey (key : PyStr → Int) (x a : PyStr) :
    ∀ l : List PyStr, a ∈ insertByKey key x l ↔ a ∈ x :: l := by
  intro l
  induction l with
  | nil => simp [insertByKey]
  | cons y ys ih =>
      simp only [insertByKey]
      split
      · simp only [List.mem_cons, ih]
        tauto
      · simp

lemma length_insertByKey (key : PyStr → Int) (x : PyStr) :
    ∀ l : List PyStr, (insertByKey key x l).length = l.length + 1 := by
  intro l
  induction l with
  | nil => simp [insertByKey]
  | cons y ys ih =>
      simp only [insertByKey]
      split
      · simp [ih]
      · simp

lemma mem_sortByKey (key : PyStr → Int) (a : PyStr) :
    ∀ l : List PyStr, a ∈ sortByKey key l ↔ a ∈ l := by
  intro l
  induction l with
  | nil => simp [sortByKey]
  | cons x xs ih => simp [sortByKey, mem_insertByKey, ih]

lemma length_sortByKey (key : PyStr → Int) :
    ∀ l : List PyStr, (sortByKey key l).length = l.length := by
  intro l
  induction l with
  | nil => simp [sortByKey]
  | cons x xs ih => simp [sortByKey, length_insertByKey, ih]

end VideoSplitterApp

/-- C1: at the spec's own example — crop `{x:1900, y:0, width:100, height:100}`
against a `1920x1080` video — `validate_crop_params` reports the
out-of-bounds width error but still returns `True` (its `return False`
lines are commented out in the source), and `start_cutting` therefore
hands the job list to the extraction engine and starts the run.  The
claim that planning fails and no jobs are emitted is contradicted by
the code. -/
theorem c1_crop_out_of_bounds_run_still_starts :
    VideoSplitterApp.validate_crop_params ⟨1900, 0, 100, 100⟩ (some (1920, 1080)) 1920 1080 =
      (true, [VideoSplitterApp.CropError.widthExceeded]) ∧
    VideoSplitterApp.start_cutting_launches true (some ⟨1900, 0, 100, 100⟩)
      (some (1920, 1080)) 1920 1080 = true := by
  decide

/-- C2 (counterexample): a resize far outside the frame — rectangle at
`x = 5000` dragged to pointer position `(10000, 100)` — is stored by
`handle_crop_updated` as `x = 5000, width = 5000`, so the stored region
has `x + width = 10000 > 1920` on a 1920-wide video.  The claimed
clamping to the video bounds does not exist in the code. -/
theorem c2_counterexample_rect_not_clamped_to_video :
    (VideoSplitterApp.handle_crop_updated
        (ResizableRect.mouseMoveResize ⟨5000, 0, 200, 150⟩ 10000 100)).x +
      (VideoSplitterApp.handle_crop_updated
        (ResizableRect.mouseMoveResize ⟨5000, 0, 200, 150⟩ 10000 100)).width = 10000 ∧
    (10000 : Int) > 1920 := by
  decide

/-- C2 (amended): for every input rectangle, the region stored by the
rectangle-update operation is clamped only to the fixed spin-box widget
ranges — `x, y ∈ [0, 9999]` and `width, height ∈ [1, 9999]` — not to
the video bounds, so `x + width` may exceed the video width. -/
theorem c2_amended_clamped_to_spinbox_ranges (rect : SceneRect) :
    (0 ≤ (VideoSplitterApp.handle_crop_updated rect).x ∧
      (VideoSplitterApp.handle_crop_updated rect).x ≤ 9999) ∧
    (0 ≤ (VideoSplitterApp.handle_crop_updated rect).y ∧
      (VideoSplitterApp.handle_crop_updated rect).y ≤ 9999) ∧
    (1 ≤ (VideoSplitterApp.handle_crop_updated rect).width ∧
      (VideoSplitterApp.handle_crop_updated rect).width ≤ 9999) ∧
    (1 ≤ (VideoSplitterApp.handle_crop_updated rect).height ∧
      (VideoSplitterApp.handle_crop_updated rect).height ≤ 9999) := by
  simp only [VideoSplitterApp.handle_crop_updated, spinSet]
  omega

/-- C3: the constructed command places the seek flag before the input,
passes an explicit duration, and formats the crop filter as
`width:height:x:y` — but when a crop region is present the
`["-vf", filter]` pair is appended AFTER the output file, so the output
path is not the last argument (evaluated here at a concrete job). -/
theorem c3_crop_filter_appended_after_output_path :
    VideoSplitter.buildCommand ("video.mp4".toList) ("00:00:10".toList) 5
        ("out/Intro.mp4".toList) (some ⟨0, 0, 100, 100⟩) =
      ["ffmpeg".toList, "-ss".toList, "00:00:10".toList, "-i".toList, "video.mp4".toList,
        "-t".toList, "5".toList, "-c:v".toList, "libx264".toList, "-c:a".toList,
        "aac".toList, "-y".toList, "out/Intro.mp4".toList, "-vf".toList,
        "crop=100:100:0:0".toList] ∧
    (VideoSplitter.buildCommand ("video.mp4".toList) ("00:00:10".toList) 5
        ("out/Intro.mp4".toList) (some ⟨0, 0, 100, 100⟩)).getLast? ≠
      some ("out/Intro.mp4".toList) := by
  decide

/-- C4 (counterexample): at `ms = 86_400_000` (24 hours) the formatter
wraps to `"00:00:00"`, so parsing recovers 0 seconds instead of the
86_400 whole seconds the round-trip law requires. -/
theorem c4_counterexample_format_wraps_at_24h :
    VideoSplitterApp.time_to_seconds (VideoSplitterApp.format_time 86400000) = some 0 ∧
    (86400000 : Nat) / 1000 = 86400 ∧ (0 : Int) ≠ 86400 := by
  decide

/-- C4 (amended): for every `ms < 86_400_000`, parsing the formatted
string recovers the whole-second count `ms / 1000` (hence
`parse(format(ms)) * 1000 = ms / 1000 * 1000`).  `format` truncates to
whole seconds with zero-padded two-digit fields, but `HH` wraps modulo
24 hours (`QTime`), so the law fails at and above 24 hours. -/
theorem c4_amended_roundtrip_below_24h (ms : Nat) (h : ms < 86400000) :
    VideoSplitterApp.time_to_seconds (VideoSplitterApp.format_time ms) =
      some (Int.ofNat (ms / 1000)) :=
  VideoSplitterApp.time_to_seconds_format_time ms h

theorem c4_amended_roundtrip_below_24h_witness :
    VideoSplitterApp.time_to_seconds (VideoSplitterApp.format_time 3723456) = some 3723 :=
  c4_amended_roundtrip_below_24h 3723456 (by norm_num)

/-- C7: adding a range identical to one already stored leaves the store
unchanged, and — whenever the two (stripped) inputs are well-formed
`HH:MM:SS` times, which holds for anything that was ever admitted — the
outcome is specifically the duplicate rejection. -/
theorem c7_duplicate_add_rejected_store_unchanged (store : List PyStr) (s e : PyStr)
    (hmem : pyStrip s ++ " - ".toList ++ pyStrip e ∈ store) :
    (VideoSplitterApp.validate_and_add store s e).2 = store ∧
    ((VideoSplitterApp.timePatternOk (pyStrip s) = true ∧
        VideoSplitterApp.timePatternOk (pyStrip e) = true) →
      (VideoSplitterApp.validate_and_add store s e).1 =
        VideoSplitterApp.AddOutcome.duplicateRejected) := by
  unfold VideoSplitterApp.validate_and_add
  by_cases hpat : VideoSplitterApp.timePatternOk (pyStrip s) = true ∧
      VideoSplitterApp.timePatternOk (pyStrip e) = true
  · rw [if_neg (by simp [hpat])]
    rw [if_pos hmem]
    exact ⟨rfl, fun _ => rfl⟩
  · rw [if_pos (by simpa using hpat)]
    exact ⟨rfl, fun hc => absurd hc hpat⟩

theorem c7_duplicate_add_rejected_store_unchanged_witness :
    (VideoSplitterApp.validate_and_add ["00:00:01 - 00:00:02".toList] ("00:00:01".toList)
        ("00:00:02".toList)).2 = ["00:00:01 - 00:00:02".toList] ∧
    (VideoSplitterApp.validate_and_add ["00:00:01 - 00:00:02".toList] ("00:00:01".toList)
        ("00:00:02".toList)).1 = VideoSplitterApp.AddOutcome.duplicateRejected := by
  have h := c7_duplicate_add_rejected_store_unchanged ["00:00:01 - 00:00:02".toList]
    ("00:00:01".toList) ("00:00:02".toList) (by decide)
  exact ⟨h.1, h.2 ⟨by decide, by decide⟩⟩

/-- C9: the flexible parser succeeds exactly on 1, 2 or 3
colon-separated numeric parts, and on success numerically sums the
fields with weights 3600/60/1 (no `[0, 59]` range enforcement on
minutes or seconds); any non-numeric part or any other part count
yields the error result. -/
theorem c9_parse_accepts_1_2_3_numeric_parts (t : PyStr) :
    ((VideoSplitter.time_to_seconds t).isSome = true ↔
      (((pySplit ':' [] t).length = 1 ∨ (pySplit ':' [] t).length = 2 ∨
          (pySplit ':' [] t).length = 3) ∧
        ∀ p ∈ pySplit ':' [] t, (pyInt p).isSome = true)) ∧
    (∀ a b c : PyStr, ∀ ha hb hc : Int, pySplit ':' [] t = [a, b, c] →
      pyInt a = some ha → pyInt b = some hb → pyInt c = some hc →
      VideoSplitter.time_to_seconds t = some (ha * 3600 + hb * 60 + hc)) ∧
    (∀ a b : PyStr, ∀ ha hb : Int, pySplit ':' [] t = [a, b] →
      pyInt a = some ha → pyInt b = some hb →
      VideoSplitter.time_to_seconds t = some (ha * 60 + hb)) ∧
    (∀ a : PyStr, ∀ ha : Int, pySplit ':' [] t = [a] → pyInt a = some ha →
      VideoSplitter.time_to_seconds t = some ha) := by
  refine ⟨VideoSplitter.time_to_seconds_isSome_iff t, ?_, ?_, ?_⟩
  · intro a b c ha hb hc h hA hB hC
    exact VideoSplitter.time_to_seconds_three h hA hB hC
  · intro a b ha hb h hA hB
    exact VideoSplitter.time_to_seconds_two h hA hB
  · intro a ha h hA
    exact VideoSplitter.time_to_seconds_one h hA

theorem c9_parse_accepts_1_2_3_numeric_parts_witness :
    VideoSplitter.time_to_seconds ("1:2:3".toList) = some 3723 :=
  (c9_parse_accepts_1_2_3_numeric_parts ("1:2:3".toList)).2.1 ("1".toList) ("2".toList)
    ("3".toList) 1 2 3 (by decide) (by decide) (by decide) (by decide)

/-- C5 (counterexample): in a 3-job run whose external processes all
exit 0, the progress emitted after the job at index 1 is
`int(2/3*100) = 66`, while `round(2/3*100) = 67`; the code truncates,
it does not round. -/
theorem c5_counterexample_progress_truncated_not_rounded :
    (VideoSplitter.Event.progress 66 ∈ VideoSplitter.run
        { videoPath := "v.mp4".toList
          moments := ["a".toList, "b".toList, "c".toList]
          outputFolder := "out".toList
          cropParams := none
          outcomes := fun _ => VideoSplitter.ProcOutcome.exit [] 0
          outputDirExisted := true }
        ["00:00:00 - 00:00:01".toList, "00:00:01 - 00:00:02".toList,
          "00:00:02 - 00:00:03".toList] ∧
      VideoSplitter.Event.progress 67 ∉ VideoSplitter.run
        { videoPath := "v.mp4".toList
          moments := ["a".toList, "b".toList, "c".toList]
          outputFolder := "out".toList
          cropParams := none
          outcomes := fun _ => VideoSplitter.ProcOutcome.exit [] 0
          outputDirExisted := true }
        ["00:00:00 - 00:00:01".toList, "00:00:01 - 00:00:02".toList,
          "00:00:02 - 00:00:03".toList]) ∧
    round (((1 + 1 : ℚ) / 3) * 100) = 67 := by
  refine ⟨⟨by decide, by decide⟩, ?_⟩
  rw [round_eq]
  norm_num

/-- C5 (amended): every progress value emitted during a run — on zero
and non-zero exit codes alike — is
`int((jobIndex + 1) / totalJobs * 100)` evaluated in IEEE-754 double
precision (the truncation toward zero of the correctly rounded binary64
product), modelled exactly by `pyProgress`; it is not the rounding of
the percentage, and it can also differ from the exact rational floor
(57 instead of 58 at job index 28 of 50). -/
theorem c5_amended_progress_is_double_truncation (ctx : VideoSplitter.RunCtx)
    (cutPoints : List PyStr) (p : Nat)
    (h : VideoSplitter.Event.progress p ∈ VideoSplitter.run ctx cutPoints) :
    ∃ i, i < cutPoints.length ∧ p = pyProgress i cutPoints.length := by
  unfold VideoSplitter.run at h
  simp only [List.mem_append, List.mem_singleton] at h
  rcases h with (h | h) | h
  · split at h <;> simp_all
  · obtain ⟨j, hj0, hj1, hj2⟩ :=
      VideoSplitter.runJobs_progress ctx cutPoints.length cutPoints 0 p h
    exact ⟨j, by omega, hj2⟩
  · simp at h

theorem c5_amended_progress_is_double_truncation_witness :
    ∃ i, i < 1 ∧ 100 = pyProgress i 1 :=
  c5_amended_progress_is_double_truncation
    { videoPath := "v.mp4".toList
      moments := ["a".toList]
      outputFolder := "out".toList
      cropParams := none
      outcomes := fun _ => VideoSplitter.ProcOutcome.exit [] 0
      outputDirExisted := true }
    ["00:00:00 - 00:00:01".toList] 100 (by decide)

/-- C6 (counterexample): the range `00:10:00 – 00:05:00`, whose end
(300 s) precedes its start (600 s), is ACCEPTED by the add operation
and stored; `validate_and_add` checks only the `HH:MM:SS` format and
exact duplicates — it has no `endMs <= startMs` check. -/
theorem c6_counterexample_inverted_range_accepted_and_stored :
    VideoSplitterApp.validate_and_add [] ("00:10:00".toList) ("00:05:00".toList) =
      (VideoSplitterApp.AddOutcome.added, ["00:10:00 - 00:05:00".toList]) ∧
    VideoSplitterApp.time_to_seconds ("00:05:00".toList) = some 300 ∧
    VideoSplitterApp.time_to_seconds ("00:10:00".toList) = some 600 ∧
    (300 : Int) ≤ 600 := by
  decide

/-- C6 (amended): a pair with `endMs <= startMs` is NOT rejected at add
time — if it is format-valid and not a duplicate it is appended to the
store — and the `end > start` check is instead performed at start time
by `validate_inputs`, which then rejects the whole run. -/
theorem c6_amended_inverted_range_stored_then_rejected_at_start
    (store : List PyStr) (s e : PyStr) (ss es : Int)
    (hps : VideoSplitterApp.timePatternOk (pyStrip s) = true)
    (hpe : VideoSplitterApp.timePatternOk (pyStrip e) = true)
    (hdup : pyStrip s ++ " - ".toList ++ pyStrip e ∉ store)
    (hs : VideoSplitterApp.time_to_seconds (pyStrip s) = some ss)
    (he : VideoSplitterApp.time_to_seconds (pyStrip e) = some es)
    (hle : es ≤ ss) :
    (VideoSplitterApp.validate_and_add store s e).1 = VideoSplitterApp.AddOutcome.added ∧
    pyStrip s ++ " - ".toList ++ pyStrip e ∈ (VideoSplitterApp.validate_and_add store s e).2 ∧
    (VideoSplitterApp.validate_and_add store s e).2.length = store.length + 1 ∧
    ∀ hasVideo names,
      VideoSplitterApp.validate_inputs hasVideo (VideoSplitterApp.validate_and_add store s e).2
        names = false := by
  have hval : VideoSplitterApp.validate_and_add store s e =
      (VideoSplitterApp.AddOutcome.added,
        VideoSplitterApp.sortByKey VideoSplitterApp.startKey
          (store ++ [pyStrip s ++ " - ".toList ++ pyStrip e])) := by
    unfold VideoSplitterApp.validate_and_add
    rw [if_neg (by simp [hps, hpe])]
    rw [if_neg hdup]
  have hcombined : pyStrip s ++ " - ".toList ++ pyStrip e ∈
      (VideoSplitterApp.validate_and_add store s e).2 := by
    rw [hval]
    rw [VideoSplitterApp.mem_sortByKey]
    simp
  have hsplitc : pySplit ' ' ("- ".toList) (pyStrip s ++ " - ".toList ++ pyStrip e) =
      [pyStrip s, pyStrip e] := by
    have hsep : (" - ".toList : List Char) = ' ' :: "- ".toList := by decide
    rw [hsep, pySplit_append (VideoSplitterApp.timePatternOk_no_space hps),
      pySplit_no_sep (VideoSplitterApp.timePatternOk_no_space hpe)]
  refine ⟨by rw [hval], hcombined, ?_, ?_⟩
  · rw [hval]
    simp [VideoSplitterApp.length_sortByKey]
  · intro hasVideo names
    unfold VideoSplitterApp.validate_inputs
    split
    · rfl
    split
    · rfl
    split
    · rfl
    split
    · rfl
    rw [List.all_eq_false]
    refine ⟨pyStrip s ++ " - ".toList ++ pyStrip e, hcombined, ?_⟩
    rw [hsplitc]
    simp [hs, he]
    omega

theorem c6_amended_inverted_range_stored_then_rejected_at_start_witness :
    (VideoSplitterApp.validate_and_add [] ("00:10:00".toList) ("00:05:00".toList)).1 =
      VideoSplitterApp.AddOutcome.added ∧
    pyStrip ("00:10:00".toList) ++ " - ".toList ++ pyStrip ("00:05:00".toList) ∈
      (VideoSplitterApp.validate_and_add [] ("00:10:00".toList) ("00:05:00".toList)).2 ∧
    (VideoSplitterApp.validate_and_add [] ("00:10:00".toList) ("00:05:00".toList)).2.length =
      ([] : List PyStr).length + 1 ∧
    ∀ hasVideo names,
      VideoSplitterApp.validate_inputs hasVideo
        (VideoSplitterApp.validate_and_add [] ("00:10:00".toList) ("00:05:00".toList)).2
        names = false :=
  c6_amended_inverted_range_stored_then_rejected_at_start [] ("00:10:00".toList)
    ("00:05:00".toList) 600 300 (by decide) (by decide) (by decide) (by decide) (by decide)
    (by decide)

/-- C8: a job whose parsed duration `end - start` is non-positive is
recorded as failed with the invalid-duration status and contributes
nothing to the success counter; the loop continues with the remaining
jobs unchanged and the run still terminates with the single final
tally event over all jobs. -/
theorem c8_nonpositive_duration_skipped_run_completes
    (ctx : VideoSplitter.RunCtx) (cutPoints : List PyStr) (i : Nat)
    (cp startTime endTime name : PyStr) (ss es : Int)
    (hcp : cutPoints.get? i = some cp)
    (hsplit : pySplit ' ' ("- ".toList) cp = [startTime, endTime])
    (hst : VideoSplitter.time_to_seconds startTime = some ss)
    (hen : VideoSplitter.time_to_seconds endTime = some es)
    (hdur : es - ss ≤ 0)
    (hname : ctx.moments.get? i = some name) :
    VideoSplitter.runJob ctx cutPoints.length i cp =
      ([VideoSplitter.Event.status (VideoSplitter.Status.invalidDuration name)], false) ∧
    (VideoSplitter.runJobs ctx cutPoints.length 0 cutPoints).1 =
      (VideoSplitter.runJobs ctx cutPoints.length 0 (cutPoints.take i)).1 ++
        VideoSplitter.Event.status (VideoSplitter.Status.invalidDuration name) ::
        (VideoSplitter.runJobs ctx cutPoints.length (i + 1) (cutPoints.drop (i + 1))).1 ∧
    (VideoSplitter.runJobs ctx cutPoints.length 0 cutPoints).2 =
      (VideoSplitter.runJobs ctx cutPoints.length 0 (cutPoints.take i)).2 +
        (VideoSplitter.runJobs ctx cutPoints.length (i + 1) (cutPoints.drop (i + 1))).2 ∧
    ∃ n, n ≤ cutPoints.length ∧
      (VideoSplitter.run ctx cutPoints).getLast? =
        some (VideoSplitter.Event.finished n ctx.outputFolder) := by
  have hjob : VideoSplitter.runJob ctx cutPoints.length i cp =
      ([VideoSplitter.Event.status (VideoSplitter.Status.invalidDuration name)], false) := by
    have hsplit2 : pySplit ' ' ['-', ' '] cp = [startTime, endTime] := hsplit
    have hname2 : ctx.moments[i]? = some name := by simpa [← List.get?_eq_getElem?] using hname
    have hdur2 : es ≤ ss := by omega
    simp [VideoSplitter.runJob, hsplit2, hst, hen, hname2, hdur2]
  obtain ⟨hlen, hget⟩ := List.get?_eq_some.mp hcp
  have hdecomp : cutPoints = cutPoints.take i ++ cp :: cutPoints.drop (i + 1) := by
    conv_lhs => rw [← List.take_append_drop i cutPoints]
    congr 1
    rw [List.drop_eq_getElem_cons hlen]
    congr 1
  have htake : (cutPoints.take i).length = i := by
    rw [List.length_take]
    omega
  have happ := VideoSplitter.runJobs_append ctx cutPoints.length (cutPoints.take i)
    (cp :: cutPoints.drop (i + 1)) 0
  rw [htake, Nat.zero_add] at happ
  have hstep : VideoSplitter.runJobs ctx cutPoints.length i (cp :: cutPoints.drop (i + 1)) =
      (VideoSplitter.Event.status (VideoSplitter.Status.invalidDuration name) ::
        (VideoSplitter.runJobs ctx cutPoints.length (i + 1) (cutPoints.drop (i + 1))).1,
        (VideoSplitter.runJobs ctx cutPoints.length (i + 1) (cutPoints.drop (i + 1))).2) := by
    simp only [VideoSplitter.runJobs, hjob]
    simp
  have hloop : VideoSplitter.runJobs ctx cutPoints.length 0 cutPoints =
      ((VideoSplitter.runJobs ctx cutPoints.length 0 (cutPoints.take i)).1 ++
          VideoSplitter.Event.status (VideoSplitter.Status.invalidDuration name) ::
          (VideoSplitter.runJobs ctx cutPoints.length (i + 1) (cutPoints.drop (i + 1))).1,
        (VideoSplitter.runJobs ctx cutPoints.length 0 (cutPoints.take i)).2 +
          (VideoSplitter.runJobs ctx cutPoints.length (i + 1) (cutPoints.drop (i + 1))).2) := by
    rw [← hdecomp] at happ
    rw [happ, hstep]
  refine ⟨hjob, by rw [hloop], by rw [hloop], ?_⟩
  exact ⟨(VideoSplitter.runJobs ctx cutPoints.length 0 cutPoints).2,
    VideoSplitter.runJobs_succ_le ctx cutPoints.length cutPoints 0,
    VideoSplitter.run_getLast ctx cutPoints⟩

theorem c8_nonpositive_duration_skipped_run_completes_witness :
    VideoSplitter.runJob
      { videoPath := "v.mp4".toList
        moments := ["A".toList]
        outputFolder := "out".toList
        cropParams := none
        outcomes := fun _ => VideoSplitter.ProcOutcome.exit [] 0
        outputDirExisted := true }
      (["00:00:05 - 00:00:05".toList] : List PyStr).length 0
      ("00:00:05 - 00:00:05".toList) =
      ([VideoSplitter.Event.status (VideoSplitter.Status.invalidDuration ("A".toList))],
        false) :=
  (c8_nonpositive_duration_skipped_run_completes
    { videoPath := "v.mp4".toList
      moments := ["A".toList]
      outputFolder := "out".toList
      cropParams := none
      outcomes := fun _ => VideoSplitter.ProcOutcome.exit [] 0
      outputDirExisted := true }
    ["00:00:05 - 00:00:05".toList] 0 ("00:00:05 - 00:00:05".toList) ("00:00:05".toList)
    ("00:00:05".toList) ("A".toList) 5 5 (by decide) (by decide) (by decide) (by decide)
    (by decide) (by decide)).1

/-- C10: every uncancelled run (directory creation succeeding) emits
exactly one terminal result; it is the last event; its succeeded count
equals the number of job indices whose job launched an external process
that exited with code zero; and that count never exceeds the total. -/
theorem c10_run_single_terminal_tally (ctx : VideoSplitter.RunCtx)
    (cutPoints : List PyStr) :
    (VideoSplitter.run ctx cutPoints).countP (fun e => VideoSplitter.isFinished e) = 1 ∧
    (VideoSplitter.run ctx cutPoints).getLast? =
      some (VideoSplitter.Event.finished
        ((List.range cutPoints.length).countP
          (fun j => (VideoSplitter.runJob ctx cutPoints.length j (cutPoints.getD j [])).2))
        ctx.outputFolder) ∧
    (∀ j cp, (VideoSplitter.runJob ctx cutPoints.length j cp).2 = true ↔
      ((∃ command, VideoSplitter.Event.launched command ∈
          (VideoSplitter.runJob ctx cutPoints.length j cp).1) ∧
        VideoSplitter.exitedZero (ctx.outcomes j) = true)) ∧
    (List.range cutPoints.length).countP
        (fun j => (VideoSplitter.runJob ctx cutPoints.length j (cutPoints.getD j [])).2) ≤
      cutPoints.length := by
  refine ⟨VideoSplitter.run_one_finished ctx cutPoints, ?_, ?_, ?_⟩
  · rw [VideoSplitter.run_getLast]
    congr 2
    rw [VideoSplitter.runJobs_succ_eq_countP]
    apply List.countP_congr
    intro j _
    simp
  · intro j cp
    exact VideoSplitter.runJob_success_iff ctx cutPoints.length j cp
  · calc (List.range cutPoints.length).countP
          (fun j => (VideoSplitter.runJob ctx cutPoints.length j (cutPoints.getD j [])).2) ≤
          (List.range cutPoints.length).length := List.countP_le_length _
      _ = cutPoints.length := List.length_range _
